import Mathlib

/-!
Shallow embedding of the JZ4780 NAND controller driver
(`drivers/mtd/nand/jz4780_nand.c`) and proofs about its hooks.

Hardware side effects (NEMC chip-enable assertions, byte writes to the
memory-mapped bank window, WARN_ON reports) are modelled as explicit event
lists returned by each hook next to the updated chip record.  Machine
integers are modelled as `Nat` (with an explicit `% 2^32` where the C code
uses `uint32_t` arithmetic and wraparound matters) and as `Int` where the C
type is a signed `int`.
-/

namespace JZ4780

/-- Sub-window offsets of a NEMC bank window (`OFFSET_DATA/CMD/ADDR`). -/
def OFFSET_DATA : Nat := 0x00000000

def OFFSET_CMD : Nat := 0x00400000

def OFFSET_ADDR : Nat := 0x00800000

/-- `NAND_NCE` control bit: select the chip (chip enable). -/
def NAND_NCE : Nat := 0x01

/-- `NAND_CLE` control bit: command latch enable. -/
def NAND_CLE : Nat := 0x02

/-- `NAND_ALE` control bit: address latch enable. -/
def NAND_ALE : Nat := 0x04

/-- `NAND_CTRL_CHANGE` control bit: the bus state has changed. -/
def NAND_CTRL_CHANGE : Nat := 0x80

/-- `NAND_CMD_NONE`: the sentinel meaning that no byte is supplied. -/
def NAND_CMD_NONE : Int := -1

/-- `NAND_ECC_READ` mode argument of the `ecc.hwctl` hook. -/
def NAND_ECC_READ : Nat := 0

/-- `NAND_ECC_WRITE` mode argument of the `ecc.hwctl` hook. -/
def NAND_ECC_WRITE : Nat := 1

/-- `2^32`, the modulus of `uint32_t` arithmetic. -/
def U32 : Nat := 4294967296

/-- One entry of the controller's `cs[]` table (`struct jz4780_nand_cs`):
the NEMC bank number and the base of its memory-mapped window. -/
structure Jz4780NandCs where
  bank : Nat
  base : Nat
  deriving DecidableEq

/-- The chip's ECC parameters (`chip->ecc.{size,bytes,strength}`). -/
structure NandEccCtrl where
  size : Nat
  bytes : Nat
  strength : Nat
  deriving DecidableEq

/-- The parameter block handed to the BCH engine
(`struct jz4780_bch_params`). -/
structure Jz4780BchParams where
  size : Nat
  bytes : Nat
  strength : Nat
  deriving DecidableEq

/-- The mutable per-chip state of `struct jz4780_nand_chip` together with
the framework pointers `chip->IO_ADDR_R/W` that the driver reprograms. -/
structure Jz4780NandChip where
  ioAddrR : Nat
  ioAddrW : Nat
  busyGpioActiveLow : Bool
  wpGpioActiveLow : Bool
  reading : Bool
  selected : Int
  ecc : NandEccCtrl
  deriving DecidableEq

/-- Result of the `select_chip` hook: the updated chip record and the list
of NEMC chip-enable events `(bank, value)` issued via
`jz4780_nemc_assert`. -/
structure SelectChipResult where
  chip : Jz4780NandChip
  nemc : List (Nat × Bool)
  deriving DecidableEq

/-- `jz4780_nand_select_chip`.  On `chipnr = -1` it deasserts the bank of a
currently selected chip (if any); otherwise it points the framework's data
read/write pointers at the DATA sub-window of bank `cs[chipnr]`.  In both
cases it records `chipnr` as the selected index. -/
def jz4780_nand_select_chip (cs : Nat → Jz4780NandCs) (nand : Jz4780NandChip)
    (chipnr : Int) : SelectChipResult :=
  if chipnr = -1 then
    let nemcEvents :=
      if 0 ≤ nand.selected then
        [((cs nand.selected.toNat).bank, false)]
      else
        []
    { chip := { nand with selected := chipnr }, nemc := nemcEvents }
  else
    let c := cs chipnr.toNat
    { chip := { nand with
                  ioAddrR := c.base + OFFSET_DATA,
                  ioAddrW := c.base + OFFSET_DATA,
                  selected := chipnr },
      nemc := [] }

/-- Result of the `cmd_ctrl` hook: the updated chip record, the NEMC
chip-enable events, the byte writes `(value, address)` issued via
`writeb`, and whether `WARN_ON` fired. -/
structure CmdCtrlResult where
  chip : Jz4780NandChip
  nemc : List (Nat × Bool)
  writes : List (Nat × Nat)
  warned : Bool
  deriving DecidableEq

/-- `jz4780_nand_cmd_ctrl`.  If no chip is selected it warns and returns.
On `NAND_CTRL_CHANGE` it repoints `IO_ADDR_W` at the ADDR, CMD or DATA
sub-window according to `NAND_ALE`/`NAND_CLE` and tells the NEMC to
assert or deassert chip enable according to `NAND_NCE`.  Finally, if a
byte is supplied (`cmd ≠ NAND_CMD_NONE`), it is written at the (possibly
just reprogrammed) `IO_ADDR_W`. -/
def jz4780_nand_cmd_ctrl (cs : Nat → Jz4780NandCs) (nand : Jz4780NandChip)
    (cmd : Int) (ctrl : Nat) : CmdCtrlResult :=
  if nand.selected < 0 then
    { chip := nand, nemc := [], writes := [], warned := true }
  else
    let c := cs nand.selected.toNat
    let nand1 :=
      if ctrl &&& NAND_CTRL_CHANGE ≠ 0 then
        if ctrl &&& NAND_ALE ≠ 0 then
          { nand with ioAddrW := c.base + OFFSET_ADDR }
        else if ctrl &&& NAND_CLE ≠ 0 then
          { nand with ioAddrW := c.base + OFFSET_CMD }
        else
          { nand with ioAddrW := c.base + OFFSET_DATA }
      else
        nand
    let nemcEvents :=
      if ctrl &&& NAND_CTRL_CHANGE ≠ 0 then
        [(c.bank, decide (ctrl &&& NAND_NCE ≠ 0))]
      else
        []
    let writeEvents :=
      if cmd ≠ NAND_CMD_NONE then
        [((cmd % 256).toNat, nand1.ioAddrW)]
      else
        []
    { chip := nand1, nemc := nemcEvents, writes := writeEvents,
      warned := false }

/-- `jz4780_nand_dev_ready`: returns
`!(gpiod_get_value_cansleep(busy_gpio) ^ busy_gpio_active_low)`,
with the GPIO value and the recorded polarity flag as inputs. -/
def jz4780_nand_dev_ready (gpioValue activeLow : Bool) : Bool :=
  !(Bool.xor gpioValue activeLow)

/-- `jz4780_nand_ecc_hwctl`: records whether the upcoming operation is a
read (`mode == NAND_ECC_READ`). -/
def jz4780_nand_ecc_hwctl (nand : Jz4780NandChip) (mode : Nat) :
    Jz4780NandChip :=
  { nand with reading := mode = NAND_ECC_READ }

/-- Result of the `ecc.calculate` hook: the returned code and the list of
invocations of the BCH engine's calculate, each recorded as the forwarded
parameter block and data buffer. -/
structure EccCalculateResult where
  ret : Int
  bchCalls : List (Jz4780BchParams × List Nat)
  deriving DecidableEq

/-- `jz4780_nand_ecc_calculate`.  On the read path (`reading` set) it
returns 0 without touching the BCH engine; on the write path it forwards
`chip->ecc.{size,bytes,strength}` and the data buffer to
`jz4780_bch_calculate` (modelled as the oracle `bch`) and returns its
result unchanged. -/
def jz4780_nand_ecc_calculate (bch : Jz4780BchParams → List Nat → Int)
    (nand : Jz4780NandChip) (dat : List Nat) : EccCalculateResult :=
  if nand.reading then
    { ret := 0, bchCalls := [] }
  else
    let params : Jz4780BchParams :=
      { size := nand.ecc.size, bytes := nand.ecc.bytes,
        strength := nand.ecc.strength }
    { ret := bch params dat, bchCalls := [(params, dat)] }

/-- `jz4780_nand_ecc_correct`: forwards `chip->ecc.{size,bytes,strength}`,
the data buffer and the read-back ECC to `jz4780_bch_correct` (modelled as
the oracle `bch`, returning the error count or failure code together with
the corrected data buffer).  The `calc_ecc` argument is taken but never
used, exactly as in the C code. -/
def jz4780_nand_ecc_correct
    (bch : Jz4780BchParams → List Nat → List Nat → Int × List Nat)
    (nand : Jz4780NandChip) (dat read_ecc calc_ecc : List Nat) :
    Int × List Nat :=
  bch { size := nand.ecc.size, bytes := nand.ecc.bytes,
        strength := nand.ecc.strength } dat read_ecc

/-- The kernel's `fls` (find last set) on a 32-bit value: the 1-based index
of the highest set bit, 0 for 0.  Written with explicit fuel (32 bits) so
that it is structurally recursive. -/
def flsAux : Nat → Nat → Nat
  | 0, _ => 0
  | fuel + 1, x => if x = 0 then 0 else flsAux fuel (x / 2) + 1

/-- `fls` on a 32-bit quantity. -/
def fls (x : Nat) : Nat := flsAux 32 x

/-- Line 186 of the driver:
`chip->ecc.bytes = fls(1 + 8 * chip->ecc.size) * chip->ecc.strength / 8;`
C integer division truncates. -/
def ecc_bytes (size strength : Nat) : Nat :=
  fls (1 + 8 * size) * strength / 8

/-- The per-step ECC byte count as the spec's words state it:
`ceil(strength * ceil_log2(1 + 8*step_size) / 8)`, to be compared with the
source's `ecc_bytes`. -/
def ecc_bytes_spec (size strength : Nat) : Nat :=
  (strength * fls (1 + 8 * size) + 7) / 8

/-- The generated `struct nand_ecclayout`: ECC byte count, ECC byte
positions in the OOB area, and the single free region. -/
structure NandEcclayout where
  eccbytes : Nat
  eccpos : List Nat
  oobfreeOffs : Nat
  oobfreeLength : Nat
  deriving DecidableEq

/-- The layout-generation tail of `jz4780_nand_init_ecc` (lines 220-230):
`eccbytes = writesize / size * bytes`, `start = oobsize - eccbytes`,
`eccpos[i] = start + i`, free region `{2, oobsize - eccbytes - 2}`.
All of `eccbytes`, `start`, the positions and the free-region length are
`uint32_t` quantities, so each subtraction wraps modulo `2^32` (written as
addition of the complement). -/
def jz4780_gen_layout (writesize oobsize size bytes : Nat) : NandEcclayout :=
  let eccbytes := writesize / size * bytes % U32
  let start := (oobsize + (U32 - eccbytes)) % U32
  { eccbytes := eccbytes
    eccpos := (List.range eccbytes).map (fun i => (start + i) % U32)
    oobfreeOffs := 2
    oobfreeLength := (oobsize + (U32 - eccbytes) + (U32 - 2)) % U32 }

/-- `jz4780_nand_init_ecc` from the ECC-byte computation through the layout
generation, for the hardware/raw modes that reach the layout code (BCH
handle already acquired): it computes `chip->ecc.bytes`, generates the
layout, and returns 0.  There is no check of the layout against
`oobsize`. -/
def jz4780_nand_init_ecc_layout (writesize oobsize size strength : Nat) :
    Int × NandEcclayout :=
  let bytes := ecc_bytes size strength
  (0, jz4780_gen_layout writesize oobsize size bytes)

/-- An invocation of one of the two bus hooks, for stating trace
properties. -/
inductive NandOp where
  | selectChip (chipnr : Int)
  | cmdCtrl (cmd : Int) (ctrl : Nat)
  deriving DecidableEq

/-- Whether an operation is a `cmd_ctrl` invocation. -/
def NandOp.isCmdCtrl : NandOp → Bool
  | NandOp.cmdCtrl _ _ => true
  | NandOp.selectChip _ => false

/-- Run one hook invocation, returning the new chip state and the NEMC
chip-enable events it issued. -/
def stepOp (cs : Nat → Jz4780NandCs) (nand : Jz4780NandChip) :
    NandOp → Jz4780NandChip × List (Nat × Bool)
  | NandOp.selectChip n =>
    let r := jz4780_nand_select_chip cs nand n
    (r.chip, r.nemc)
  | NandOp.cmdCtrl cmd ctrl =>
    let r := jz4780_nand_cmd_ctrl cs nand cmd ctrl
    (r.chip, r.nemc)

/-- Run a sequence of hook invocations, concatenating the NEMC chip-enable
events in order. -/
def runOps (cs : Nat → Jz4780NandCs) (nand : Jz4780NandChip) :
    List NandOp → Jz4780NandChip × List (Nat × Bool)
  | [] => (nand, [])
  | op :: ops =>
    let s := stepOp cs nand op
    let rest := runOps cs s.1 ops
    (rest.1, s.2 ++ rest.2)

/-- A concrete `cs[]` table used by the witness theorems: bank `n+1` with a
window at `0x1000000 * n`. -/
def cs0 : Nat → Jz4780NandCs := fun n => { bank := n + 1, base := 0x1000000 * n }

/-- A concrete chip record used by the witness theorems (chip 0 selected). -/
def chip0 : Jz4780NandChip :=
  { ioAddrR := 0, ioAddrW := 0, busyGpioActiveLow := false,
    wpGpioActiveLow := false, reading := false, selected := 0,
    ecc := { size := 1024, bytes := 42, strength := 24 } }

/-- The same chip record with no chip selected. -/
def chipNone : Jz4780NandChip := { chip0 with selected := -1 }

/-- Claim C2, counterexample: at `step_size = 512`, `strength = 4` the code's
`chip->ecc.bytes = fls(1 + 8*512) * 4 / 8 = 13 * 4 / 8 = 6` (C division
truncates), while the spec's `ceil(4 * 13 / 8) = 7`. -/
theorem ecc_bytes_not_ceil_cex :
    ecc_bytes 512 4 = 6 ∧ ecc_bytes_spec 512 4 = 7 ∧
    ecc_bytes 512 4 ≠ ecc_bytes_spec 512 4 := by
  decide

/-- Claim C2, amended: the stored per-step ECC byte count is the *floor*
(truncating C division) of `strength * fls(1 + 8*step_size) / 8`, i.e. the
unique `b` with `8*b ≤ strength * fls(1 + 8*step_size) < 8*(b+1)`; it
coincides with the spec's `ceil` only when 8 divides the product. -/
theorem ecc_bytes_rounds_down (size strength : Nat) :
    8 * ecc_bytes size strength ≤ strength * fls (1 + 8 * size) ∧
    strength * fls (1 + 8 * size) < 8 * (ecc_bytes size strength + 1) := by
  unfold ecc_bytes
  rw [mul_comm strength (fls (1 + 8 * size))]
  generalize fls (1 + 8 * size) * strength = p
  omega

/-- Claim C4: at the spec's own failing configuration (`step_size = 1024`,
`strength = 24`, `page_write_size = 4096`, `oob_size = 128`, so
`total_ecc_bytes = 168` and `168 + 2 > 128`), the ECC/layout initialization
performs no check against `oob_size`: it returns 0 (success) and generates
a layout whose `start = oobsize - eccbytes` wrapped around to
`2^32 - 40`, so `eccpos[0] = 4294967256` and the free-region length
wrapped to `2^32 - 42`.  The claimed refusal to attach does not exist in
the code. -/
theorem init_ecc_missing_oob_check :
    (jz4780_nand_init_ecc_layout 4096 128 1024 24).1 = 0 ∧
    (jz4780_nand_init_ecc_layout 4096 128 1024 24).2.eccbytes = 168 ∧
    128 < 168 + 2 ∧
    (jz4780_nand_init_ecc_layout 4096 128 1024 24).2.eccpos.head? =
      some 4294967256 ∧
    (jz4780_nand_init_ecc_layout 4096 128 1024 24).2.oobfreeLength =
      4294967254 := by
  decide

/-- Claim C6, counterexample: the hook does not return
`gpio_value XOR active_low`: with a low GPIO and active-high polarity the
code returns 1 (ready), while the XOR is 0. -/
theorem dev_ready_not_xor_cex :
    jz4780_nand_dev_ready false false ≠ Bool.xor false false := by
  decide

/-- Claim C6, amended: the hook returns the logical *negation* of
(GPIO value XOR recorded active-low polarity): the result is nonzero
(ready) exactly when the GPIO value equals the active-low flag. -/
theorem dev_ready_eq_not_xor (v al : Bool) :
    (jz4780_nand_dev_ready v al = !(Bool.xor v al)) ∧
    (jz4780_nand_dev_ready v al = true ↔ v = al) := by
  revert v al
  decide

/-- Claim C7: after `hwctl(NAND_ECC_READ)` a `calculate` call returns 0 and
invokes the BCH engine zero times; after `hwctl(NAND_ECC_WRITE)` it invokes
the engine exactly once, forwarding the chip's
`{size, bytes, strength}` and the data buffer, and returns the engine's
result unchanged. -/
theorem hwctl_then_calculate (bch : Jz4780BchParams → List Nat → Int)
    (nand : Jz4780NandChip) (dat : List Nat) :
    (jz4780_nand_ecc_calculate bch
        (jz4780_nand_ecc_hwctl nand NAND_ECC_READ) dat).ret = 0 ∧
    (jz4780_nand_ecc_calculate bch
        (jz4780_nand_ecc_hwctl nand NAND_ECC_READ) dat).bchCalls = [] ∧
    (jz4780_nand_ecc_calculate bch
        (jz4780_nand_ecc_hwctl nand NAND_ECC_WRITE) dat).bchCalls =
      [({ size := nand.ecc.size, bytes := nand.ecc.bytes,
          strength := nand.ecc.strength }, dat)] ∧
    (jz4780_nand_ecc_calculate bch
        (jz4780_nand_ecc_hwctl nand NAND_ECC_WRITE) dat).ret =
      bch { size := nand.ecc.size, bytes := nand.ecc.bytes,
            strength := nand.ecc.strength } dat := by
  simp [jz4780_nand_ecc_calculate, jz4780_nand_ecc_hwctl,
        NAND_ECC_READ, NAND_ECC_WRITE]

/-- Claim C8: a `cmd_ctrl` call with no chip selected and a byte supplied
reports a warning and is a no-op: no byte write, no NEMC chip-enable
change, and the chip record (write pointer included) is unchanged. -/
theorem cmd_ctrl_unselected_noop (cs : Nat → Jz4780NandCs)
    (nand : Jz4780NandChip) (cmd : Int) (ctrl : Nat)
    (hsel : nand.selected < 0) (hbyte : cmd ≠ NAND_CMD_NONE) :
    (jz4780_nand_cmd_ctrl cs nand cmd ctrl).warned = true ∧
    (jz4780_nand_cmd_ctrl cs nand cmd ctrl).writes = [] ∧
    (jz4780_nand_cmd_ctrl cs nand cmd ctrl).nemc = [] ∧
    (jz4780_nand_cmd_ctrl cs nand cmd ctrl).chip = nand := by
  simp [jz4780_nand_cmd_ctrl, hsel]

/-- Witness for C8: no chip selected, byte `0x70` with `CLE|NCE|CHANGE`. -/
theorem cmd_ctrl_unselected_noop_witness :
    (chipNone.selected < 0 ∧ (0x70 : Int) ≠ NAND_CMD_NONE) ∧
    ((jz4780_nand_cmd_ctrl cs0 chipNone 0x70 0x83).warned = true ∧
     (jz4780_nand_cmd_ctrl cs0 chipNone 0x70 0x83).writes = [] ∧
     (jz4780_nand_cmd_ctrl cs0 chipNone 0x70 0x83).nemc = [] ∧
     (jz4780_nand_cmd_ctrl cs0 chipNone 0x70 0x83).chip = chipNone) :=
  ⟨by decide,
   cmd_ctrl_unselected_noop cs0 chipNone 0x70 0x83 (by decide) (by decide)⟩

/-- Claim C9: `select_chip` with a valid (non-sentinel) index `n` points
both `IO_ADDR_R` and `IO_ADDR_W` at the DATA sub-window of bank `cs[n]`,
records `n` as selected, issues no NEMC chip-enable event, and changes no
other chip-record state. -/
theorem select_chip_valid_frame (cs : Nat → Jz4780NandCs)
    (nand : Jz4780NandChip) (chipnr : Int) (h : 0 ≤ chipnr) :
    (jz4780_nand_select_chip cs nand chipnr).chip.ioAddrR =
      (cs chipnr.toNat).base + OFFSET_DATA ∧
    (jz4780_nand_select_chip cs nand chipnr).chip.ioAddrW =
      (cs chipnr.toNat).base + OFFSET_DATA ∧
    (jz4780_nand_select_chip cs nand chipnr).chip.selected = chipnr ∧
    (jz4780_nand_select_chip cs nand chipnr).nemc = [] ∧
    (jz4780_nand_select_chip cs nand chipnr).chip.reading = nand.reading ∧
    (jz4780_nand_select_chip cs nand chipnr).chip.busyGpioActiveLow =
      nand.busyGpioActiveLow ∧
    (jz4780_nand_select_chip cs nand chipnr).chip.wpGpioActiveLow =
      nand.wpGpioActiveLow ∧
    (jz4780_nand_select_chip cs nand chipnr).chip.ecc = nand.ecc := by
  have hne : chipnr ≠ -1 := by omega
  simp [jz4780_nand_select_chip, hne]

/-- Witness for C9: `select_chip(1)` on the concrete two-chip table. -/
theorem select_chip_valid_frame_witness :
    ((0 : Int) ≤ 1) ∧
    ((jz4780_nand_select_chip cs0 chip0 1).chip.ioAddrR =
      (cs0 (1 : Int).toNat).base + OFFSET_DATA ∧
    (jz4780_nand_select_chip cs0 chip0 1).chip.ioAddrW =
      (cs0 (1 : Int).toNat).base + OFFSET_DATA ∧
    (jz4780_nand_select_chip cs0 chip0 1).chip.selected = 1 ∧
    (jz4780_nand_select_chip cs0 chip0 1).nemc = [] ∧
    (jz4780_nand_select_chip cs0 chip0 1).chip.reading = chip0.reading ∧
    (jz4780_nand_select_chip cs0 chip0 1).chip.busyGpioActiveLow =
      chip0.busyGpioActiveLow ∧
    (jz4780_nand_select_chip cs0 chip0 1).chip.wpGpioActiveLow =
      chip0.wpGpioActiveLow ∧
    (jz4780_nand_select_chip cs0 chip0 1).chip.ecc = chip0.ecc) :=
  ⟨by decide, select_chip_valid_frame cs0 chip0 1 (by decide)⟩

/-- Claim C10: the `correct` hook ignores its `calc_ecc` argument — only
the ECC parameters, the data buffer and `read_ecc` are forwarded to the
BCH engine, so the result (return code and corrected data) is identical
for any two `calc_ecc` buffers. -/
theorem correct_ignores_calc_ecc
    (bch : Jz4780BchParams → List Nat → List Nat → Int × List Nat)
    (nand : Jz4780NandChip) (dat read_ecc c1 c2 : List Nat) :
    jz4780_nand_ecc_correct bch nand dat read_ecc c1 =
      jz4780_nand_ecc_correct bch nand dat read_ecc c2 := rfl

/-- Claim C1: on a `cmd_ctrl` call carrying `NAND_CTRL_CHANGE` (with a chip
selected), the write pointer afterwards is the sub-window of the selected
chip's bank chosen by the latch bits — `ALE → base + 0x800000`,
else `CLE → base + 0x400000`, else `base` — hence always one of
`{base, base + 0x400000, base + 0x800000}`; and when a byte is supplied it
is written at that newly selected pointer. -/
theorem cmd_ctrl_change_write_pointer (cs : Nat → Jz4780NandCs)
    (nand : Jz4780NandChip) (cmd : Int) (ctrl : Nat)
    (hsel : 0 ≤ nand.selected) (hchg : ctrl &&& NAND_CTRL_CHANGE ≠ 0) :
    ((jz4780_nand_cmd_ctrl cs nand cmd ctrl).chip.ioAddrW =
      if ctrl &&& NAND_ALE ≠ 0 then
        (cs nand.selected.toNat).base + 0x800000
      else if ctrl &&& NAND_CLE ≠ 0 then
        (cs nand.selected.toNat).base + 0x400000
      else
        (cs nand.selected.toNat).base) ∧
    ((jz4780_nand_cmd_ctrl cs nand cmd ctrl).chip.ioAddrW =
        (cs nand.selected.toNat).base ∨
     (jz4780_nand_cmd_ctrl cs nand cmd ctrl).chip.ioAddrW =
        (cs nand.selected.toNat).base + 0x400000 ∨
     (jz4780_nand_cmd_ctrl cs nand cmd ctrl).chip.ioAddrW =
        (cs nand.selected.toNat).base + 0x800000) ∧
    (cmd ≠ NAND_CMD_NONE →
      (jz4780_nand_cmd_ctrl cs nand cmd ctrl).writes =
        [((cmd % 256).toNat,
          (jz4780_nand_cmd_ctrl cs nand cmd ctrl).chip.ioAddrW)]) := by
  have hns : ¬ nand.selected < 0 := not_lt.mpr hsel
  simp only [jz4780_nand_cmd_ctrl, hns, if_false, if_true, hchg, ne_eq,
    not_false_eq_true, if_pos, OFFSET_ADDR, OFFSET_CMD, OFFSET_DATA,
    Nat.add_zero]
  split_ifs with h1 h2 <;> simp <;> assumption

/-- Witness for C1: `cmd_ctrl(0x70, CLE|NCE|CHANGE)` on chip 0 lands the
write pointer at `base + 0x400000` and writes `0x70` there. -/
theorem cmd_ctrl_change_write_pointer_witness :
    ((0 : Int) ≤ chip0.selected ∧ (0x83 : Nat) &&& NAND_CTRL_CHANGE ≠ 0) ∧
    (((jz4780_nand_cmd_ctrl cs0 chip0 0x70 0x83).chip.ioAddrW =
      if (0x83 : Nat) &&& NAND_ALE ≠ 0 then
        (cs0 chip0.selected.toNat).base + 0x800000
      else if (0x83 : Nat) &&& NAND_CLE ≠ 0 then
        (cs0 chip0.selected.toNat).base + 0x400000
      else
        (cs0 chip0.selected.toNat).base) ∧
    ((jz4780_nand_cmd_ctrl cs0 chip0 0x70 0x83).chip.ioAddrW =
        (cs0 chip0.selected.toNat).base ∨
     (jz4780_nand_cmd_ctrl cs0 chip0 0x70 0x83).chip.ioAddrW =
        (cs0 chip0.selected.toNat).base + 0x400000 ∨
     (jz4780_nand_cmd_ctrl cs0 chip0 0x70 0x83).chip.ioAddrW =
        (cs0 chip0.selected.toNat).base + 0x800000) ∧
    ((0x70 : Int) ≠ NAND_CMD_NONE →
      (jz4780_nand_cmd_ctrl cs0 chip0 0x70 0x83).writes =
        [(((0x70 : Int) % 256).toNat,
          (jz4780_nand_cmd_ctrl cs0 chip0 0x70 0x83).chip.ioAddrW)])) :=
  ⟨by decide, cmd_ctrl_change_write_pointer cs0 chip0 0x70 0x83
    (by decide) (by decide)⟩

/-- Claim C3: for any hardware/raw ECC configuration with
`total_ecc_bytes + 2 ≤ oob_size` (where
`total_ecc_bytes = page_write_size / step_size * ecc_bytes_per_step`), the
generated layout has exactly `total_ecc_bytes` ECC bytes forming the
contiguous suffix `eccpos[i] = oob_size - total_ecc_bytes + i`, a single
free region `{offset 2, length oob_size - total_ecc_bytes - 2}`, and the
free region disjoint from every ECC position. -/
theorem gen_layout_valid (writesize oobsize size bytes : Nat)
    (hsz : 0 < size) (hoob : oobsize < U32)
    (htot : writesize / size * bytes + 2 ≤ oobsize) :
    (jz4780_gen_layout writesize oobsize size bytes).eccbytes =
      writesize / size * bytes ∧
    (∀ i, i < writesize / size * bytes →
      (jz4780_gen_layout writesize oobsize size bytes).eccpos[i]? =
        some (oobsize - writesize / size * bytes + i)) ∧
    (jz4780_gen_layout writesize oobsize size bytes).oobfreeOffs = 2 ∧
    (jz4780_gen_layout writesize oobsize size bytes).oobfreeLength =
      oobsize - writesize / size * bytes - 2 ∧
    (∀ p ∈ (jz4780_gen_layout writesize oobsize size bytes).eccpos,
      ¬ (2 ≤ p ∧
         p < 2 + (oobsize - writesize / size * bytes - 2))) := by
  simp only [jz4780_gen_layout, U32] at hoob ⊢
  generalize writesize / size * bytes = t at htot ⊢
  have hmod : t % 4294967296 = t := by omega
  rw [hmod]
  have hstart : (oobsize + (4294967296 - t)) % 4294967296 = oobsize - t := by
    omega
  simp only [hstart]
  refine ⟨trivial, ?_, trivial, by omega, ?_⟩
  · intro i hi
    rw [List.getElem?_map, List.getElem?_range hi]
    simp only [Option.map_some']
    congr 1
    omega
  · intro p hp
    simp only [List.mem_map, List.mem_range] at hp
    obtain ⟨i, hi, rfl⟩ := hp
    omega

/-- Witness for C3: `page_write_size = 1024`, `oob_size = 32`,
`step_size = 512`, `ecc_bytes_per_step = 7`; total 14 ECC bytes at
positions `18..31`, free region `{2, 16}`. -/
theorem gen_layout_valid_witness :
    (0 < 512 ∧ 32 < U32 ∧ 1024 / 512 * 7 + 2 ≤ 32) ∧
    ((jz4780_gen_layout 1024 32 512 7).eccbytes = 1024 / 512 * 7 ∧
    (∀ i, i < 1024 / 512 * 7 →
      (jz4780_gen_layout 1024 32 512 7).eccpos[i]? =
        some (32 - 1024 / 512 * 7 + i)) ∧
    (jz4780_gen_layout 1024 32 512 7).oobfreeOffs = 2 ∧
    (jz4780_gen_layout 1024 32 512 7).oobfreeLength =
      32 - 1024 / 512 * 7 - 2 ∧
    (∀ p ∈ (jz4780_gen_layout 1024 32 512 7).eccpos,
      ¬ (2 ≤ p ∧ p < 2 + (32 - 1024 / 512 * 7 - 2)))) :=
  ⟨⟨by decide, by decide, by decide⟩,
   gen_layout_valid 1024 32 512 7 (by decide) (by decide) (by decide)⟩

/-- `cmd_ctrl` never changes the selected index. -/
theorem cmd_ctrl_selected_eq (cs : Nat → Jz4780NandCs) (nand : Jz4780NandChip)
    (cmd : Int) (ctrl : Nat) :
    (jz4780_nand_cmd_ctrl cs nand cmd ctrl).chip.selected = nand.selected := by
  simp only [jz4780_nand_cmd_ctrl]
  split_ifs <;> rfl

/-- Every NEMC chip-enable event issued by `cmd_ctrl` targets the bank of
the currently selected chip. -/
theorem cmd_ctrl_nemc_bank (cs : Nat → Jz4780NandCs) (nand : Jz4780NandChip)
    (cmd : Int) (ctrl : Nat) :
    ∀ e ∈ (jz4780_nand_cmd_ctrl cs nand cmd ctrl).nemc,
      e.1 = (cs nand.selected.toNat).bank := by
  simp only [jz4780_nand_cmd_ctrl]
  split_ifs <;> simp

/-- Running a sequence of `cmd_ctrl` invocations leaves the selected index
unchanged, and every NEMC event it issues targets the bank of the chip
selected at the start. -/
theorem runOps_cmds_bank (cs : Nat → Jz4780NandCs) :
    ∀ ops : List NandOp, (∀ op ∈ ops, op.isCmdCtrl = true) →
    ∀ nand : Jz4780NandChip,
      (runOps cs nand ops).1.selected = nand.selected ∧
      ∀ e ∈ (runOps cs nand ops).2, e.1 = (cs nand.selected.toNat).bank := by
  intro ops
  induction ops with
  | nil =>
    intro _ nand
    exact ⟨rfl, by intro e he; simp [runOps] at he⟩
  | cons op tl ih =>
    intro hops nand
    have hop := hops op (by simp)
    have hops' : ∀ o ∈ tl, o.isCmdCtrl = true :=
      fun o ho => hops o (by simp [ho])
    cases op with
    | selectChip n => simp [NandOp.isCmdCtrl] at hop
    | cmdCtrl cmd ctrl =>
      simp only [runOps, stepOp]
      have h1 := cmd_ctrl_selected_eq cs nand cmd ctrl
      have h2 := cmd_ctrl_nemc_bank cs nand cmd ctrl
      have ihn := ih hops' (jz4780_nand_cmd_ctrl cs nand cmd ctrl).chip
      refine ⟨by rw [ihn.1, h1], ?_⟩
      intro e he
      simp only [List.mem_append] at he
      rcases he with he | he
      · exact h2 e he
      · have h3 := ihn.2 e he
        rw [h1] at h3
        exact h3

/-- `runOps` over an appended sequence composes the final states and
concatenates the event lists. -/
theorem runOps_append (cs : Nat → Jz4780NandCs) (l1 l2 : List NandOp) :
    ∀ nand : Jz4780NandChip,
      runOps cs nand (l1 ++ l2) =
        ((runOps cs (runOps cs nand l1).1 l2).1,
         (runOps cs nand l1).2 ++ (runOps cs (runOps cs nand l1).1 l2).2) := by
  induction l1 with
  | nil => intro nand; simp [runOps]
  | cons op tl ih =>
    intro nand
    simp only [List.cons_append, runOps, List.append_eq]
    rw [ih]
    simp [List.append_assoc]

/-- Claim C5: for every sequence `select_chip(a)`, then any `cmd_ctrl`
calls, then `select_chip(-1)` (no intervening select), every NEMC
chip-enable event — assert or deassert — targets chip `a`'s bank (so at
most that one bank is ever asserted), the last event is the deassert of
that bank issued by the deselect, and the final selected index is the
"none" value `-1`. -/
theorem select_cmds_deselect_single_bank (cs : Nat → Jz4780NandCs)
    (nand : Jz4780NandChip) (a : Int) (ha : 0 ≤ a) (ops : List NandOp)
    (hops : ∀ op ∈ ops, op.isCmdCtrl = true) :
    (runOps cs nand
      (NandOp.selectChip a :: (ops ++ [NandOp.selectChip (-1)]))).1.selected
        = -1 ∧
    (∀ e ∈ (runOps cs nand
        (NandOp.selectChip a :: (ops ++ [NandOp.selectChip (-1)]))).2,
      e.1 = (cs a.toNat).bank) ∧
    (∃ pre, (runOps cs nand
        (NandOp.selectChip a :: (ops ++ [NandOp.selectChip (-1)]))).2 =
      pre ++ [((cs a.toNat).bank, false)]) := by
  have hne : a ≠ -1 := by omega
  have hsel1 : (jz4780_nand_select_chip cs nand a).chip.selected = a := by
    simp [jz4780_nand_select_chip, hne]
  have hev1 : (jz4780_nand_select_chip cs nand a).nemc = [] := by
    simp [jz4780_nand_select_chip, hne]
  have hmid := runOps_cmds_bank cs ops hops (jz4780_nand_select_chip cs nand a).chip
  have hmidsel :
      (runOps cs (jz4780_nand_select_chip cs nand a).chip ops).1.selected = a := by
    rw [hmid.1, hsel1]
  have hge : 0 ≤ (runOps cs (jz4780_nand_select_chip cs nand a).chip ops).1.selected := by
    rw [hmidsel]; exact ha
  have hdesel :
      jz4780_nand_select_chip cs
        (runOps cs (jz4780_nand_select_chip cs nand a).chip ops).1 (-1) =
      { chip := { (runOps cs (jz4780_nand_select_chip cs nand a).chip ops).1
                    with selected := -1 },
        nemc := [((cs a.toNat).bank, false)] } := by
    rw [jz4780_nand_select_chip, if_pos rfl, if_pos hge, hmidsel]
  simp only [runOps, stepOp, runOps_append, hdesel, hev1, List.nil_append,
    List.append_nil]
  refine ⟨trivial, ?_, ?_⟩
  · intro e he
    simp only [List.mem_append, List.mem_singleton] at he
    rcases he with he | he
    · have h3 := hmid.2 e he
      rw [hsel1] at h3
      exact h3
    · rw [he]
  · exact ⟨_, rfl⟩

/-- Witness for C5: `select_chip(0)`, one `cmd_ctrl(0x70, CLE|NCE|CHANGE)`,
then `select_chip(-1)` on the concrete table: only bank 1 is touched and
the final event deasserts it. -/
theorem select_cmds_deselect_single_bank_witness :
    ((0 : Int) ≤ 0 ∧
      (∀ op ∈ [NandOp.cmdCtrl 0x70 0x83], op.isCmdCtrl = true)) ∧
    ((runOps cs0 chipNone
      (NandOp.selectChip 0 :: ([NandOp.cmdCtrl 0x70 0x83] ++
        [NandOp.selectChip (-1)]))).1.selected = -1 ∧
    (∀ e ∈ (runOps cs0 chipNone
        (NandOp.selectChip 0 :: ([NandOp.cmdCtrl 0x70 0x83] ++
          [NandOp.selectChip (-1)]))).2,
      e.1 = (cs0 (0 : Int).toNat).bank) ∧
    (∃ pre, (runOps cs0 chipNone
        (NandOp.selectChip 0 :: ([NandOp.cmdCtrl 0x70 0x83] ++
          [NandOp.selectChip (-1)]))).2 =
      pre ++ [((cs0 (0 : Int).toNat).bank, false)])) :=
  ⟨⟨by decide, by decide⟩,
   select_cmds_deselect_single_bank cs0 chipNone 0 (by decide)
     [NandOp.cmdCtrl 0x70 0x83] (by decide)⟩

end JZ4780
